import Mathlib

/-!
Shallow embedding of the emoji URL-shortener backend: `src/unnamed/part_000`
(the main variant, with the `POST /newURL` allocation route and the error
handler middleware) and `src/api.js` (the older read-only variant with the
non-returning `keyExists`).

Modelling conventions:
* JS strings are Lean `String`s, viewed as sequences of Unicode code points.
  This matches the code-point view taken by the `punycode` module
  (`ucs2decode` combines surrogate pairs), and all punycode output is ASCII,
  so `slice(0, -1)` on such output is `String.dropRight 1`.
* The MongoDB `urls` collection is a list of documents in insertion order.
  The unique index on the `emojis` field declared at part_000 line 27
  (`urls.createIndex({ emojis: 1 }, { unique: true })`) gives inserts their
  documented reject-on-duplicate semantics: an insert whose key is already
  present fails with an E11000 duplicate-key error instead of writing.
* External library functions that the routes call are embedded as follows:
  `punycode.encode` is implemented in full (RFC 3492) so concrete keys can
  be computed; the yup url check (`.trim().url().required()` on a present
  value) is a parameter `urlValid : String → Bool` of the allocation route;
  `nodeEmoji.random()` is a stream `draw : Nat → String` of random draws.
* The unbounded loops of the source (the `do ... while` of
  `generateRandomEmojis`) take an explicit fuel argument; `none` models the
  run in which the loop has not yet exited.
-/

namespace EmojiShortener

/-- A document of the `urls` collection: `{ emojis, url, raw }` as built at
part_000 line 152 — `emojis` holds the punycode-encoded key, `url` the
target, `raw` the original slug. -/
structure UrlRecord where
  emojis : String
  url : String
  raw : String
deriving DecidableEq, Repr

/-- The `urls` collection, in insertion order (oldest first). -/
abbrev Store := List UrlRecord

/-! ### punycode.encode (the node `punycode` module, RFC 3492)

Embedded in full so that the canonical keys of concrete slugs can be
computed.  Loops carry an explicit fuel argument that is always large
enough (the digit loop strictly shrinks `q`, the adapt loop strictly
shrinks `delta`, the outer loop handles at least one code point per
round), so the fuel-exhausted branches are never reached. -/

/-- Digit encoder `digitToBasic(digit, 0)` of punycode.js: 0..25 ↦ a..z, 26..35 ↦ 0..9. -/
def punyDigitChar (d : Nat) : Char :=
  if d < 26 then Char.ofNat (d + 97) else Char.ofNat (d + 22)

/-- The `while (delta > baseMinusTMin * tMax >> 1)` loop of `adapt`:
repeatedly divide `delta` by 35 adding 36 to `k`, while `delta > 455`. -/
def punyAdaptLoop : Nat → Nat → Nat → Nat × Nat
  | 0, delta, k => (delta, k)
  | fuel + 1, delta, k =>
    if 455 < delta then punyAdaptLoop fuel (delta / 35) (k + 36)
    else (delta, k)

/-- Bias adaptation `adapt(delta, numPoints, firstTime)` of punycode.js. -/
def punyAdapt (delta numPoints : Nat) (firstTime : Bool) : Nat :=
  let d1 := if firstTime then delta / 700 else delta / 2
  let d2 := d1 + d1 / numPoints
  let (d3, k) := punyAdaptLoop (d2 + 1) d2 0
  k + 36 * d3 / (d3 + 38)

/-- The threshold `t` of the variable-length integer encoder:
`k <= bias ? tMin : (k >= bias + tMax ? tMax : k - bias)`. -/
def punyT (k bias : Nat) : Nat :=
  if k ≤ bias then 1 else if bias + 26 ≤ k then 26 else k - bias

/-- The `for (k = base; ; k += base)` digit-emitting loop of `encode`,
started with `q = delta` and `k = 36`. -/
def punyDigits : Nat → Nat → Nat → Nat → List Char → List Char
  | 0, q, _, _, out => out ++ [punyDigitChar q]
  | fuel + 1, q, bias, k, out =>
    let t := punyT k bias
    if q < t then out ++ [punyDigitChar q]
    else
      punyDigits fuel ((q - t) / (36 - t)) bias (k + 36)
        (out ++ [punyDigitChar (t + (q - t) % (36 - t))])

/-- One pass of `for (const currentValue of input)` inside `encode`, with
`n` already advanced to the current minimum `m`; the state threaded through
is `(delta, bias, h, out)` where `h` is `handledCPCount` and `b` is
`basicLength`. -/
def punyInnerPass (b n : Nat) :
    List Nat → Nat → Nat → Nat → List Char → Nat × Nat × Nat × List Char
  | [], delta, bias, h, out => (delta, bias, h, out)
  | c :: rest, delta, bias, h, out =>
    let delta := if c < n then delta + 1 else delta
    if c = n then
      let out := punyDigits (delta + 1) delta bias 36 out
      let bias := punyAdapt delta (h + 1) (h = b)
      punyInnerPass b n rest 0 bias (h + 1) out
    else
      punyInnerPass b n rest delta bias h out

/-- The outer `while (handledCPCount < inputLength)` loop of `encode`:
arguments after `input` and `b` are fuel, `n`, `delta`, `bias`, `h`, `out`. -/
def punyOuterLoop (input : List Nat) (b : Nat) :
    Nat → Nat → Nat → Nat → Nat → List Char → List Char
  | 0, _, _, _, _, out => out
  | fuel + 1, n, delta, bias, h, out =>
    if h < input.length then
      match (input.filter (fun c => n ≤ c)).min? with
      | none => out
      | some m =>
        let delta := delta + (m - n) * (h + 1)
        let (delta, bias, h, out) := punyInnerPass b m input delta bias h out
        punyOuterLoop input b fuel (m + 1) (delta + 1) bias h out
    else out

/-- Full `punycode.encode` (RFC 3492) on the code points of `s`: copy the basic
(ASCII) code points, append the delimiter `-` when there is at least one,
then emit the generalized variable-length integers for the rest. -/
def punycodeEncode (s : String) : String :=
  let input := s.data.map Char.toNat
  let basicChars := s.data.filter (fun c => c.toNat < 128)
  let b := basicChars.length
  let out := if 0 < b then basicChars ++ ['-'] else basicChars
  String.mk (punyOuterLoop input b (input.length + 1) 128 0 72 b out)

-- RFC 3492 / punycode.js sanity vectors for the embedding.
example : punycodeEncode "abc" = "abc-" := by decide
example : punycodeEncode "" = "" := by decide
example : punycodeEncode "ü" = "tda" := by decide
example : punycodeEncode "bücher" = "bcher-kva" := by decide

/-! ### Store operations (the `urls` collection through monk) -/

/-- Lookup `urls.findOne({ emojis: key })`: the first document whose `emojis` field
equals `key`, if any. -/
def findOne (store : Store) (key : String) : Option UrlRecord :=
  store.find? (fun doc => doc.emojis == key)

/-- part_000 lines 59-68 `keyExists`: resolves to `true` iff `findOne`
returned a document. -/
def keyExists (store : Store) (key : String) : Bool :=
  (findOne store key).isSome

/-- Outcome of `urls.insert`. -/
inductive InsertResult where
  | created (doc : UrlRecord)
  | dupKey
deriving DecidableEq, Repr

/-- Insert `urls.insert(newURL)` under the unique index on `emojis` declared at
part_000 line 27: a document whose key is already present is rejected with
a duplicate-key error (MongoDB E11000) instead of being written; otherwise
the document is appended to the collection. -/
def insertUnique (store : Store) (doc : UrlRecord) : Store × InsertResult :=
  if keyExists store doc.emojis then (store, InsertResult.dupKey)
  else (store ++ [doc], InsertResult.created doc)

/-! ### Slug generation (part_000 lines 71-82) -/

/-- part_000 lines 74-78: a candidate slug is the concatenation of 5 draws
of `nodeEmoji.random().emoji`; `draw` is the stream of draws, candidate `i`
using draws `5*i .. 5*i+4`. -/
def candidateAt (draw : Nat → String) (i : Nat) : String :=
  (List.range 5).foldl (fun acc j => acc ++ draw (5 * i + j)) ""

/-- part_000 lines 71-82 `generateRandomEmojis`: the `do ... while (exists)`
loop draws candidate `i`, `i + 1`, ... until
`keyExists (punycode.encode candidate)` is false; on exit it returns the
slug together with the number of loop iterations executed.  `fuel` bounds
the unbounded loop of the source; `none` models the run in which the loop
has not yet exited. -/
def generateRandomEmojis (store : Store) (draw : Nat → String) :
    Nat → Nat → Option (String × Nat)
  | 0, _ => none
  | fuel + 1, i =>
    let emojis := candidateAt draw i
    if keyExists store (punycodeEncode emojis) then
      generateRandomEmojis store draw fuel (i + 1)
    else some (emojis, i + 1)

/-! ### The `POST /newURL` allocation route (part_000 lines 127-161) -/

/-- part_000 line 91. -/
def existsErrorMessage : String := "This emoji slug already exists... 😿"

/-- part_000 line 92. -/
def emojiErrorMessage : String := "There must be at least 1 emoji in the slug... 👹"

/-- Representative message of the MongoDB duplicate-key error raised when
`urls.insert` hits the unique index on `emojis`. -/
def e11000Message : String :=
  "E11000 duplicate key error collection: urls index: emojis_1"

/-- Representative message of the yup `ValidationError` raised when the
`url` rules of `recordSchema` fail. -/
def urlValidationMessage : String := "url must be a valid URL"

/-- The request body of `POST /newURL`: `{ emojis?: string, url: string }`
(line 128 destructures both; either may be absent). -/
structure NewUrlBody where
  emojis : Option String
  url : Option String
deriving DecidableEq, Repr

/-- JS truthiness of an optional string, as used at line 129
(`emojis ? punycode.encode(emojis) : undefined`): absent and the empty
string are falsy. -/
def jsTruthyString : Option String → Option String
  | none => none
  | some s => if s = "" then none else some s

/-- part_000 lines 131-135: `recordSchema.validate({ encodedEmojis, url })`.
The object passed to `validate` has no `emojis` key — the slug travels
under the key `encodedEmojis`, which the schema does not declare and yup
ignores — so the schema rules for `emojis` (`.trim().matches(/^[\w\-]/i)`)
are applied to `undefined` and pass vacuously; only the `url` rules
(`.trim().url().required()`) can fail.  `urlValid` stands for the external
yup check on a present url value. -/
def validateBody (urlValid : String → Bool) (body : NewUrlBody) : Bool :=
  match body.url with
  | some u => urlValid u
  | none => false

/-- The response produced by the `POST /newURL` handler: `res.send` of the
created document (the `port`/`domain` metadata of line 155 is deployment
info, not record state), or `next(error)` carrying `error.message`. -/
inductive RouteResult where
  | ok (created : UrlRecord)
  | err (message : String)
deriving DecidableEq, Repr

/-- part_000 lines 148-155, reached after the per-path pre-checks: the
`encodedEmojis.slice(0, -1) === emojis` guard throwing `emojiErrorMessage`,
then `urls.insert(newURL)`; a duplicate-key rejection by the unique index
propagates the MongoDB error to the catch block and hence `next(error)`. -/
def finishInsert (store : Store) (emojis encodedEmojis url : String) :
    Store × RouteResult :=
  if encodedEmojis.dropRight 1 = emojis then
    (store, RouteResult.err emojiErrorMessage)
  else
    match insertUnique store { emojis := encodedEmojis, url := url, raw := emojis } with
    | (store2, InsertResult.created doc) => (store2, RouteResult.ok doc)
    | (store2, InsertResult.dupKey) => (store2, RouteResult.err e11000Message)

/-- part_000 lines 127-161, the `POST /newURL` handler.  Returns the store
after the request together with the response; `none` models the run in
which the unbounded generation loop (fuelled by `genFuel`) has not exited,
so the handler never responds. -/
def newURLRoute (urlValid : String → Bool) (draw : Nat → String)
    (genFuel : Nat) (store : Store) (body : NewUrlBody) :
    Option (Store × RouteResult) :=
  let emojis0 := jsTruthyString body.emojis
  if validateBody urlValid body then
    match emojis0 with
    | none =>
      match generateRandomEmojis store draw genFuel 0 with
      | none => none
      | some (emojis, _) =>
        some (finishInsert store emojis (punycodeEncode emojis) (body.url.getD ""))
    | some emojis =>
      let encodedEmojis := punycodeEncode emojis
      if keyExists store encodedEmojis then
        some (store, RouteResult.err existsErrorMessage)
      else
        some (finishInsert store emojis encodedEmojis (body.url.getD ""))
  else
    some (store, RouteResult.err urlValidationMessage)

/-! ### The error handler middleware (part_000 lines 167-190) -/

/-- part_000 lines 167-182: the response status chosen by the error handler
from `error.status` (none of the errors produced by the routes above carry
a `status` field) and `error.message`. -/
def errorHandlerStatus (status? : Option Nat) (message : String) : Nat :=
  match status? with
  | some s => s
  | none =>
    if message = existsErrorMessage then 444
    else if message = emojiErrorMessage then 555
    else 500

/-- A client-error HTTP status (the 4xx range). -/
def isClientErrorStatus (s : Nat) : Bool :=
  400 ≤ s && s < 500

/-! ### The resolution and listing routes -/

/-- Response of `GET /:id` (part_000 lines 108-124). -/
inductive ResolveResult where
  | ok (emojiURL redirectURL : String)
  | notFound
deriving DecidableEq, Repr

/-- part_000 lines 108-124, the `GET /:id` handler: a `findOne` on the
exact key, answering the emoji URL rebuilt from `raw` and the stored
target, or a 404.  The handler performs no store write; the store after
the request is returned to make that frame condition statable. -/
def resolveRoute (domain : String) (store : Store) (id : String) :
    Store × ResolveResult :=
  match findOne store id with
  | some url =>
    (store, ResolveResult.ok ("https://" ++ domain ++ "/" ++ url.raw) url.url)
  | none => (store, ResolveResult.notFound)

/-- The store after `n` successive `GET /:id` requests for the same key. -/
def resolveMany (domain : String) (id : String) : Store → Nat → Store
  | store, 0 => store
  | store, n + 1 => resolveMany domain id (resolveRoute domain store id).1 n

/-- part_000 lines 95-98, `GET /`: all records, most recent first. -/
def listAllRoute (store : Store) : List UrlRecord :=
  store.reverse

/-- JS `arr.slice(-num)` for a natural `num`: `-0` is `0`, so `num = 0`
yields the whole array; otherwise the last `min num len` elements. -/
def jsSliceNeg (l : List UrlRecord) (num : Nat) : List UrlRecord :=
  if num = 0 then l else l.drop (l.length - num)

/-- part_000 lines 101-105, `GET /last/:num`:
`records.slice(-index).reverse()`. -/
def lastNRoute (store : Store) (num : Nat) : List UrlRecord :=
  (jsSliceNeg store num).reverse

/-! ### The schema character pattern (part_000 line 55)

`/^[\w\-]/i` tests whether the first character of the value is a word
character or a hyphen (one character suffices: the regex is unanchored at
the right).  The schema never receives the slug (see `validateBody`), so
this pattern is embedded only to state what the declared validation would
have required. -/

/-- Membership of `\w` (ASCII word character). -/
def isWordChar (c : Char) : Bool :=
  (("a" : String).front ≤ c && c ≤ ("z" : String).front) ||
  (("A" : String).front ≤ c && c ≤ ("Z" : String).front) ||
  (("0" : String).front ≤ c && c ≤ ("9" : String).front) || c = ("_" : String).front

/-- Test `/^[\w\-]/i.test(s)`: the slug pattern of `recordSchema`. -/
def matchesSlugPattern (s : String) : Bool :=
  match s.data with
  | [] => false
  | c :: _ => isWordChar c || c = ("-" : String).front

/-! ### The `src/api.js` variant -/

/-- api.js lines 58-67 `keyExists`: the `then` callback would compute this
boolean from the found document... -/
def keyExistsApiPromise (store : Store) (key : String) : Bool :=
  (findOne store key).isSome

/-- Return value of the api.js `keyExists`: the function body has no `return` statement — the promise built
from `urls.findOne(...).then(...)` is discarded — so the call itself
evaluates to `undefined` (`none`) for every input. -/
def keyExistsApi (_store : Store) (_key : String) : Option Bool :=
  none

/-- JS truthiness of the `exists` variable in the api.js loop:
`undefined` is falsy. -/
def jsTruthy : Option Bool → Bool
  | none => false
  | some b => b

/-- api.js lines 70-82 `generateRandomEmojis`: same `do ... while (exists)`
shape as part_000, but `exists = keyExists(punycode.encode(emojis))` is the
(undefined) return value of `keyExistsApi`, not the promise value. -/
def generateRandomEmojisApi (store : Store) (draw : Nat → String) :
    Nat → Nat → Option (String × Nat)
  | 0, _ => none
  | fuel + 1, i =>
    let emojis := candidateAt draw i
    if jsTruthy (keyExistsApi store (punycodeEncode emojis)) then
      generateRandomEmojisApi store draw fuel (i + 1)
    else some (emojis, i + 1)

/-! ## Helper lemmas about the allocation route -/

/-- Inversion of `finishInsert` on the success path: the created document
is exactly `{ emojis: encodedEmojis, url, raw: emojis }`, it is appended to
the store, and its key was absent beforehand. -/
theorem finishInsert_ok (store : Store) (emojis encodedEmojis url : String)
    (store2 : Store) (r : UrlRecord)
    (h : finishInsert store emojis encodedEmojis url
      = (store2, RouteResult.ok r)) :
    r = ⟨encodedEmojis, url, emojis⟩ ∧ store2 = store ++ [r] ∧
    keyExists store encodedEmojis = false := by
  unfold finishInsert insertUnique at h
  by_cases hc : encodedEmojis.dropRight 1 = emojis
  · rw [if_pos hc] at h
    exact absurd h (by simp)
  · rw [if_neg hc] at h
    by_cases hk : keyExists store encodedEmojis
    · simp only [hk, if_pos] at h
      exact absurd h (by simp)
    · simp only [hk] at h
      simp only [Bool.false_eq_true, if_false] at h
      obtain ⟨h1, h2⟩ := Prod.mk.injEq .. ▸ h
      rw [RouteResult.ok.injEq] at h2
      subst h2
      exact ⟨rfl, h1.symm, by simpa using hk⟩

/-- Inversion of the `POST /newURL` handler on the success path: the
persisted Record satisfies `key = punycode.encode raw`, it is appended to
the store, and its key was absent from the store prior to the call. -/
theorem newURLRoute_ok (urlValid : String → Bool) (draw : Nat → String)
    (genFuel : Nat) (store : Store) (body : NewUrlBody)
    (store2 : Store) (r : UrlRecord)
    (h : newURLRoute urlValid draw genFuel store body
      = some (store2, RouteResult.ok r)) :
    r.emojis = punycodeEncode r.raw ∧ store2 = store ++ [r] ∧
    keyExists store r.emojis = false := by
  unfold newURLRoute at h
  by_cases hv : validateBody urlValid body = true
  · rw [if_pos hv] at h
    cases he : jsTruthyString body.emojis with
    | none =>
      rw [he] at h
      cases hg : generateRandomEmojis store draw genFuel 0 with
      | none => rw [hg] at h; exact absurd h (by simp)
      | some p =>
        obtain ⟨emojis, cnt⟩ := p
        rw [hg] at h
        simp only [Option.some.injEq] at h
        obtain ⟨hr, hst, hk⟩ := finishInsert_ok _ _ _ _ _ _ h
        subst hr
        exact ⟨rfl, hst, hk⟩
    | some emojis =>
      rw [he] at h
      dsimp only at h
      by_cases hk : keyExists store (punycodeEncode emojis) = true
      · rw [if_pos hk] at h
        exact absurd h (by simp)
      · rw [if_neg hk] at h
        simp only [Option.some.injEq] at h
        obtain ⟨hr, hst, hk2⟩ := finishInsert_ok _ _ _ _ _ _ h
        subst hr
        exact ⟨rfl, hst, hk2⟩
  · rw [if_neg hv] at h
    exact absurd h (by simp)

/-! ## Claim theorems -/

/-- C7: `canonicalize` (that is, `punycode.encode`) is a pure deterministic
function — two calls on the same raw string yield the same key — and every
Record persisted by a successful `POST /newURL`, on the caller-supplied
path as well as on the auto-generated path, satisfies
`key = canonicalize(raw)` (the record is built at part_000 line 152 as
`{ emojis: encodedEmojis, url, raw: emojis }` with
`encodedEmojis = punycode.encode(emojis)` on both paths). -/
theorem key_eq_canonicalize (urlValid : String → Bool) (draw : Nat → String)
    (genFuel : Nat) (store : Store) (body : NewUrlBody)
    (store2 : Store) (r : UrlRecord)
    (h : newURLRoute urlValid draw genFuel store body
      = some (store2, RouteResult.ok r)) :
    r.emojis = punycodeEncode r.raw ∧ store2 = store ++ [r] ∧
    ∀ raw : String, punycodeEncode raw = punycodeEncode raw :=
  ⟨(newURLRoute_ok _ _ _ _ _ _ _ h).1, (newURLRoute_ok _ _ _ _ _ _ _ h).2.1,
    fun _ => rfl⟩

/-- Witness for `key_eq_canonicalize`: the caller-supplied slug `🐱`
allocated against an empty store. -/
theorem key_eq_canonicalize_witness :
    (UrlRecord.mk (punycodeEncode "🐱") "https://a.com/" "🐱").emojis
      = punycodeEncode (UrlRecord.mk (punycodeEncode "🐱") "https://a.com/" "🐱").raw ∧
    [UrlRecord.mk (punycodeEncode "🐱") "https://a.com/" "🐱"]
      = ([] : Store) ++ [UrlRecord.mk (punycodeEncode "🐱") "https://a.com/" "🐱"] ∧
    ∀ raw : String, punycodeEncode raw = punycodeEncode raw :=
  key_eq_canonicalize (fun _ => true) (fun _ => "") 1 []
    ⟨some "🐱", some "https://a.com/"⟩ _ _ (by decide)

/-- The auto-generation loop of part_000, characterized: a successful run
starting at candidate `i` returns the first candidate from `i` on whose
canonical key is unused, and every earlier candidate tried collided. -/
theorem generateRandomEmojis_spec (store : Store) (draw : Nat → String)
    (fuel : Nat) :
    ∀ (i : Nat) (e : String) (cnt : Nat),
      generateRandomEmojis store draw fuel i = some (e, cnt) →
      i < cnt ∧ e = candidateAt draw (cnt - 1) ∧
      keyExists store (punycodeEncode e) = false ∧
      ∀ j, i ≤ j → j + 1 < cnt →
        keyExists store (punycodeEncode (candidateAt draw j)) = true := by
  induction fuel with
  | zero =>
    intro i e cnt h
    simp [generateRandomEmojis] at h
  | succ fuel ih =>
    intro i e cnt h
    rw [generateRandomEmojis] at h
    by_cases hk : keyExists store (punycodeEncode (candidateAt draw i)) = true
    · rw [if_pos hk] at h
      obtain ⟨hlt, he, hfresh, hcoll⟩ := ih (i + 1) e cnt h
      refine ⟨by omega, he, hfresh, ?_⟩
      intro j hij hj
      rcases Nat.eq_or_lt_of_le hij with hji | hlt2
      · exact hji ▸ hk
      · exact hcoll j hlt2 hj
    · rw [if_neg hk] at h
      simp only [Option.some.injEq, Prod.mk.injEq] at h
      obtain ⟨he, hcnt⟩ := h
      subst he
      subst hcnt
      refine ⟨by omega, by simp, by simpa using hk, ?_⟩
      intro j hij hj
      omega

/-- C4: when allocation is called without a requested slug (the body
carries no `emojis`), the auto-generation loop draws candidates and
queries the Uniqueness Oracle until an unused key is found — it retries
exactly on candidate-key collision, invisibly to the caller — and the
Record returned by a successful call has a key that was absent from the
store immediately prior to the call, the record being appended to the
store. -/
theorem autogen_returns_unused_key (urlValid : String → Bool)
    (draw : Nat → String) (genFuel : Nat) (store store2 : Store)
    (url : String) (r : UrlRecord)
    (h : newURLRoute urlValid draw genFuel store ⟨none, some url⟩
      = some (store2, RouteResult.ok r)) :
    keyExists store r.emojis = false ∧ store2 = store ++ [r] ∧
    ∃ cnt, generateRandomEmojis store draw genFuel 0 = some (r.raw, cnt) ∧
      r.raw = candidateAt draw (cnt - 1) ∧
      ∀ j, j + 1 < cnt →
        keyExists store (punycodeEncode (candidateAt draw j)) = true := by
  have hmain := newURLRoute_ok _ _ _ _ _ _ _ h
  unfold newURLRoute at h
  by_cases hv : validateBody urlValid ⟨none, some url⟩ = true
  · rw [if_pos hv] at h
    simp only [jsTruthyString] at h
    cases hg : generateRandomEmojis store draw genFuel 0 with
    | none => rw [hg] at h; exact absurd h (by simp)
    | some p =>
      obtain ⟨emojis, cnt⟩ := p
      rw [hg] at h
      simp only [Option.some.injEq] at h
      obtain ⟨hr, _, _⟩ := finishInsert_ok _ _ _ _ _ _ h
      subst hr
      obtain ⟨_, hlast, _, hcoll⟩ :=
        generateRandomEmojis_spec store draw genFuel 0 emojis cnt hg
      refine ⟨hmain.2.2, hmain.2.1,
        cnt, ?_, ?_, fun j hj => hcoll j (Nat.zero_le j) hj⟩
      · rfl
      · simpa using hlast
  · rw [if_neg hv] at h
    exact absurd h (by simp)

/-- Witness for `autogen_returns_unused_key`: auto-generation against an
empty store with a draw stream of `🐱`. -/
theorem autogen_returns_unused_key_witness :
    keyExists []
        (UrlRecord.mk (punycodeEncode "🐱🐱🐱🐱🐱") "https://example.com/"
          "🐱🐱🐱🐱🐱").emojis
      = false ∧
    [UrlRecord.mk (punycodeEncode "🐱🐱🐱🐱🐱") "https://example.com/"
        "🐱🐱🐱🐱🐱"]
      = ([] : Store) ++
        [UrlRecord.mk (punycodeEncode "🐱🐱🐱🐱🐱") "https://example.com/"
          "🐱🐱🐱🐱🐱"] ∧
    ∃ cnt, generateRandomEmojis [] (fun _ => "🐱") 1 0
        = some ((UrlRecord.mk (punycodeEncode "🐱🐱🐱🐱🐱")
            "https://example.com/" "🐱🐱🐱🐱🐱").raw, cnt) ∧
      (UrlRecord.mk (punycodeEncode "🐱🐱🐱🐱🐱") "https://example.com/"
          "🐱🐱🐱🐱🐱").raw
        = candidateAt (fun _ => "🐱") (cnt - 1) ∧
      ∀ j, j + 1 < cnt →
        keyExists []
            (punycodeEncode (candidateAt (fun _ => "🐱") j))
          = true :=
  autogen_returns_unused_key (fun _ => true) (fun _ => "🐱") 1 [] _
    "https://example.com/" _ (by decide)

/-- C2 (amended): when the storage-layer insert during allocation fails on
the uniqueness constraint — a concurrent allocation took the key between
the `keyExists` pre-check and the insert — the handler propagates the
MongoDB duplicate-key error unchanged through `next(error)`: the error
handler, whose message cases cover only the two custom messages, gives it
status 500 (a server error, not the distinct 444 client-error status that
signals `AlreadyExistsError`), and the engine does not retry with a
different key — the response is the error, and the store is returned
unchanged with no further insert attempted. -/
theorem dup_insert_surfaces_500_no_retry (store : Store)
    (emojis encodedEmojis url : String)
    (hraced : keyExists store encodedEmojis = true)
    (hslug : encodedEmojis.dropRight 1 ≠ emojis) :
    finishInsert store emojis encodedEmojis url
      = (store, RouteResult.err e11000Message) ∧
    errorHandlerStatus none e11000Message = 500 ∧
    isClientErrorStatus 500 = false ∧
    e11000Message ≠ existsErrorMessage := by
  refine ⟨?_, by decide, by decide, by decide⟩
  simp [finishInsert, insertUnique, hslug, hraced]

/-- Witness for `dup_insert_surfaces_500_no_retry`: the concrete race in
which `🐱🐶` was inserted by the winner between the pre-check and the
insert of the loser. -/
theorem dup_insert_surfaces_500_no_retry_witness :
    finishInsert [⟨punycodeEncode "🐱🐶", "https://a.com/", "🐱🐶"⟩] "🐱🐶"
        (punycodeEncode "🐱🐶") "https://b.com/"
      = ([⟨punycodeEncode "🐱🐶", "https://a.com/", "🐱🐶"⟩],
          RouteResult.err e11000Message) ∧
    errorHandlerStatus none e11000Message = 500 ∧
    isClientErrorStatus 500 = false ∧
    e11000Message ≠ existsErrorMessage :=
  dup_insert_surfaces_500_no_retry _ _ _ _ (by decide) (by decide)

/-- C2, counterexample to the claim as stated: at the concrete lost race
for the key of `🐱🐶`, the failure is surfaced with status 500 — not 444,
and not any client-error (4xx) status. -/
theorem dup_insert_not_client_error_cex :
    finishInsert [⟨punycodeEncode "🐱🐶", "https://a.com/", "🐱🐶"⟩] "🐱🐶"
        (punycodeEncode "🐱🐶") "https://b.com/"
      = ([⟨punycodeEncode "🐱🐶", "https://a.com/", "🐱🐶"⟩],
          RouteResult.err e11000Message) ∧
    errorHandlerStatus none e11000Message ≠ 444 ∧
    isClientErrorStatus (errorHandlerStatus none e11000Message) = false := by
  decide

/-- C3 (amended): with a caller-supplied raw slug (present, non-empty, url
passing validation), the call fails with `AlreadyExistsError`
(`existsErrorMessage`, status 444) when the oracle reports the canonical
key already exists; when the key is unused but the supplied string is
already in canonical form (`punycode.encode(s).slice(0,-1) === s`), it
fails with the distinct empty-slug error (`emojiErrorMessage`, status 555),
not with `AlreadyExistsError`. -/
theorem requested_slug_reject_paths (urlValid : String → Bool)
    (draw : Nat → String) (genFuel : Nat) (store : Store) (emojis url : String)
    (hne : emojis ≠ "") (hurl : urlValid url = true) :
    (keyExists store (punycodeEncode emojis) = true →
      newURLRoute urlValid draw genFuel store ⟨some emojis, some url⟩
        = some (store, RouteResult.err existsErrorMessage)) ∧
    (keyExists store (punycodeEncode emojis) = false →
      (punycodeEncode emojis).dropRight 1 = emojis →
      newURLRoute urlValid draw genFuel store ⟨some emojis, some url⟩
        = some (store, RouteResult.err emojiErrorMessage)) ∧
    errorHandlerStatus none existsErrorMessage = 444 ∧
    errorHandlerStatus none emojiErrorMessage = 555 := by
  refine ⟨?_, ?_, by decide, by decide⟩
  · intro hex
    simp [newURLRoute, validateBody, hurl, jsTruthyString, hne, hex]
  · intro hex hcanon
    simp [newURLRoute, validateBody, hurl, jsTruthyString, hne, hex,
      finishInsert, hcanon]

/-- Witness for `requested_slug_reject_paths` at the slug `🐱` with an
empty store. -/
theorem requested_slug_reject_paths_witness :
    (keyExists [] (punycodeEncode "🐱") = true →
      newURLRoute (fun _ => true) (fun _ => "") 1 []
          ⟨some "🐱", some "https://a.com/"⟩
        = some ([], RouteResult.err existsErrorMessage)) ∧
    (keyExists [] (punycodeEncode "🐱") = false →
      (punycodeEncode "🐱").dropRight 1 = "🐱" →
      newURLRoute (fun _ => true) (fun _ => "") 1 []
          ⟨some "🐱", some "https://a.com/"⟩
        = some ([], RouteResult.err emojiErrorMessage)) ∧
    errorHandlerStatus none existsErrorMessage = 444 ∧
    errorHandlerStatus none emojiErrorMessage = 555 :=
  requested_slug_reject_paths _ _ 1 [] "🐱" "https://a.com/"
    (by decide) (by decide)

/-- C3, counterexample to the claim as stated: the already-canonical slug
`abc` (ASCII, so `punycode.encode "abc" = "abc-"` and the
`slice(0,-1)` check fires) on an empty store is rejected with
`emojiErrorMessage` / status 555 — not with `AlreadyExistsError`
(`existsErrorMessage` / status 444) as the claim states. -/
theorem already_canonical_wrong_error_cex :
    newURLRoute (fun _ => true) (fun _ => "") 1 []
        ⟨some "abc", some "https://example.com/"⟩
      = some ([], RouteResult.err emojiErrorMessage) ∧
    emojiErrorMessage ≠ existsErrorMessage ∧
    errorHandlerStatus none emojiErrorMessage = 555 ∧
    errorHandlerStatus none existsErrorMessage = 444 := by
  decide

/-- C5 (amended): an allocation whose target fails the url validation is
rejected by `recordSchema.validate` with a yup `ValidationError` before any
store write — the store is returned unchanged, so no Record is persisted —
but the error handler reports it with status 500 (a server error, not a
client-error status): the yup message matches neither custom message and
the error carries no `status` field. -/
theorem validation_error_is_500 (urlValid : String → Bool)
    (draw : Nat → String) (genFuel : Nat) (store : Store) (body : NewUrlBody)
    (hv : validateBody urlValid body = false) :
    newURLRoute urlValid draw genFuel store body
      = some (store, RouteResult.err urlValidationMessage) ∧
    errorHandlerStatus none urlValidationMessage = 500 ∧
    isClientErrorStatus 500 = false ∧
    urlValidationMessage ≠ existsErrorMessage ∧
    urlValidationMessage ≠ emojiErrorMessage := by
  refine ⟨?_, by decide, by decide, by decide, by decide⟩
  simp [newURLRoute, hv]

/-- Witness for `validation_error_is_500`: the malformed target
`not-a-url` against a validator accepting only `https://example.com/`. -/
theorem validation_error_is_500_witness :
    newURLRoute (fun u => u == "https://example.com/") (fun _ => "🐱") 1 []
        ⟨none, some "not-a-url"⟩
      = some ([], RouteResult.err urlValidationMessage) ∧
    errorHandlerStatus none urlValidationMessage = 500 ∧
    isClientErrorStatus 500 = false ∧
    urlValidationMessage ≠ existsErrorMessage ∧
    urlValidationMessage ≠ emojiErrorMessage :=
  validation_error_is_500 _ _ 1 [] ⟨none, some "not-a-url"⟩ (by decide)

/-- C5, counterexample to the claim as stated: the malformed target
`not-a-url` fails validation and nothing is persisted, but the reported
status is 500, which is not a client-error status. -/
theorem validation_not_client_error_cex :
    newURLRoute (fun u => u == "https://example.com/") (fun _ => "🐱") 1 []
        ⟨none, some "not-a-url"⟩
      = some ([], RouteResult.err urlValidationMessage) ∧
    isClientErrorStatus (errorHandlerStatus none urlValidationMessage) = false := by
  decide

/-- C6, code bug: the slug pattern declared in `recordSchema`
(`/^[\w\-]/i`, embedded as `matchesSlugPattern`) is never applied, because
`validate` receives the slug under the key `encodedEmojis`, which the
schema does not declare.  The slug `🐱!` violates the pattern, yet the
allocation call with it succeeds and persists a Record instead of failing
with a `ValidationError`. -/
theorem pattern_violating_slug_persisted :
    matchesSlugPattern "🐱!" = false ∧
    newURLRoute (fun _ => true) (fun _ => "") 1 []
        ⟨some "🐱!", some "https://example.com/"⟩
      = some ([⟨punycodeEncode "🐱!", "https://example.com/", "🐱!"⟩],
          RouteResult.ok ⟨punycodeEncode "🐱!", "https://example.com/", "🐱!"⟩) := by
  decide

/-- C10: in the `src/api.js` variant, `keyExists` has no `return`
statement, so it evaluates to `undefined` (`none`) for every input; the
`do ... while (exists)` loop of `generateRandomEmojis` therefore exits
after exactly one iteration and returns the first 5-emoji candidate drawn,
for every store — in particular also when the canonical key of that candidate
is already present. -/
theorem api_keyexists_undefined_one_iteration (store : Store)
    (draw : Nat → String) (fuel : Nat) (hfuel : 1 ≤ fuel) :
    (∀ key, keyExistsApi store key = none) ∧
    generateRandomEmojisApi store draw fuel 0
      = some (candidateAt draw 0, 1) := by
  refine ⟨fun _ => rfl, ?_⟩
  cases fuel with
  | zero => exact absurd hfuel (by decide)
  | succ f => rfl

/-- Witness for `api_keyexists_undefined_one_iteration`, on a store that
already contains the canonical key of the first candidate `🐱🐱🐱🐱🐱`:
the loop still returns that candidate after one iteration. -/
theorem api_keyexists_undefined_one_iteration_witness :
    ((∀ key,
        keyExistsApi
          [⟨punycodeEncode "🐱🐱🐱🐱🐱", "https://a.com/", "🐱🐱🐱🐱🐱"⟩] key
          = none) ∧
      generateRandomEmojisApi
          [⟨punycodeEncode "🐱🐱🐱🐱🐱", "https://a.com/", "🐱🐱🐱🐱🐱"⟩]
          (fun _ => "🐱") 5 0
        = some (candidateAt (fun _ => "🐱") 0, 1)) ∧
    keyExistsApiPromise
        [⟨punycodeEncode "🐱🐱🐱🐱🐱", "https://a.com/", "🐱🐱🐱🐱🐱"⟩]
        (punycodeEncode (candidateAt (fun _ => "🐱") 0))
      = true :=
  ⟨api_keyexists_undefined_one_iteration _ _ 5 (by decide), by decide⟩

/-! ## Concurrent access traces (claim C1)

Each request handler holds no in-process shared state; all shared state
lives in the `urls` collection, which the handlers touch only through the
atomic primitives `findOne` (the oracle pre-check) and `insert` (guarded by
the unique index).  A concurrent execution of any number of racing
allocations is therefore an arbitrary interleaving of these primitives,
modelled as a list of `StoreOp`s folded over the store. -/

/-- An atomic store access issued by some request handler. -/
inductive StoreOp where
  | insert (doc : UrlRecord)
  | query (key : String)
deriving DecidableEq, Repr

/-- The outcome of one atomic store access. -/
inductive OpResult where
  | created (doc : UrlRecord)
  | dupKey
  | answer (b : Bool)
deriving DecidableEq, Repr

/-- Execute one atomic store access. -/
def applyOp (store : Store) : StoreOp → Store × OpResult
  | StoreOp.insert doc =>
    match insertUnique store doc with
    | (store2, InsertResult.created d) => (store2, OpResult.created d)
    | (store2, InsertResult.dupKey) => (store2, OpResult.dupKey)
  | StoreOp.query key => (store, OpResult.answer (keyExists store key))

/-- Execute an interleaving of atomic store accesses, collecting the per-op
results. -/
def runOps : Store → List StoreOp → Store × List OpResult
  | store, [] => (store, [])
  | store, op :: rest =>
    let p := applyOp store op
    let q := runOps p.1 rest
    (q.1, p.2 :: q.2)

/-- Number of stored records carrying the key `k`. -/
def countKey (store : Store) (k : String) : Nat :=
  (store.filter (fun doc => doc.emojis == k)).length

/-- Number of successful inserts for the key `k` in a result trace. -/
def createdCount (k : String) (rs : List OpResult) : Nat :=
  (rs.filter (fun r => match r with
    | OpResult.created doc => doc.emojis == k
    | _ => false)).length

theorem keyExists_false_iff_countKey_zero (store : Store) (k : String) :
    keyExists store k = false ↔ countKey store k = 0 := by
  constructor
  · intro h
    unfold countKey
    rw [List.length_eq_zero, List.filter_eq_nil_iff]
    intro a ha hpa
    rcases ho : store.find? (fun doc => doc.emojis == k) with _ | b
    · rw [List.find?_eq_none] at ho
      exact ho a ha hpa
    · unfold keyExists findOne at h
      rw [ho] at h
      simp at h
  · intro h
    unfold keyExists findOne
    rcases ho : store.find? (fun doc => doc.emojis == k) with _ | b
    · rw [ho]
      rfl
    · have hb := List.find?_some ho
      unfold countKey at h
      rw [List.length_eq_zero, List.filter_eq_nil_iff] at h
      exact absurd hb (h b (List.mem_of_find?_eq_some ho))

theorem countKey_append_single (store : Store) (doc : UrlRecord) (k : String) :
    countKey (store ++ [doc]) k
      = countKey store k + (if doc.emojis = k then 1 else 0) := by
  unfold countKey
  rw [List.filter_append, List.length_append]
  by_cases hd : doc.emojis = k
  · have hb : (doc.emojis == k) = true := by simp [hd]
    simp [List.filter, hb, hd]
  · have hb : (doc.emojis == k) = false := by simp [hd]
    simp [List.filter, hb, hd]

/-- Along any interleaving, the final number of records with key `k` is
the initial number plus the number of successful inserts for `k`: a losing
insert changes nothing (no overwrite). -/
theorem runOps_countKey (k : String) :
    ∀ (ops : List StoreOp) (store : Store),
      countKey (runOps store ops).1 k
        = countKey store k + createdCount k (runOps store ops).2 := by
  intro ops
  induction ops with
  | nil => intro store; simp [runOps, createdCount]
  | cons op rest ih =>
    intro store
    cases op with
    | query key =>
      simp only [runOps, applyOp]
      rw [ih]
      simp [createdCount]
    | insert doc =>
      by_cases hk : keyExists store doc.emojis = true
      · simp only [runOps, applyOp, insertUnique, hk, if_true]
        rw [ih]
        simp [createdCount]
      · rw [Bool.not_eq_true] at hk
        simp only [runOps, applyOp, insertUnique, hk, Bool.false_eq_true,
          if_false]
        rw [ih, countKey_append_single]
        by_cases hd : doc.emojis = k
        · have hb : (doc.emojis == k) = true := by simp [hd]
          rw [if_pos hd]
          simp only [createdCount, List.filter, hb]
          rw [List.length_cons]
          omega
        · have hb : (doc.emojis == k) = false := by simp [hd]
          rw [if_neg hd]
          simp only [createdCount, List.filter, hb]
          omega

/-- Along any interleaving, a store never holding two records with key `k`
keeps that property: the unique index admits a key at most once. -/
theorem runOps_countKey_le_one (k : String) :
    ∀ (ops : List StoreOp) (store : Store), countKey store k ≤ 1 →
      countKey (runOps store ops).1 k ≤ 1 := by
  intro ops
  induction ops with
  | nil => intro store h; simpa [runOps] using h
  | cons op rest ih =>
    intro store h
    cases op with
    | query key => simpa only [runOps, applyOp] using ih store h
    | insert doc =>
      by_cases hk : keyExists store doc.emojis = true
      · simp only [runOps, applyOp, insertUnique, hk, if_true]
        exact ih store h
      · rw [Bool.not_eq_true] at hk
        simp only [runOps, applyOp, insertUnique, hk, Bool.false_eq_true,
          if_false]
        refine ih (store ++ [doc]) ?_
        rw [countKey_append_single]
        by_cases hd : doc.emojis = k
        · have h0 : countKey store k = 0 := by
            have hz := (keyExists_false_iff_countKey_zero store doc.emojis).mp hk
            rwa [hd] at hz
          rw [if_pos hd]
          omega
        · rw [if_neg hd]
          simpa using h

/-- C1: the store enforces uniqueness of `key` under arbitrary
interleavings of concurrent allocations.  Starting from a store holding at
most one record with key `k`, any interleaving of atomic oracle queries
and unique-index inserts (1) never produces two records with key `k`,
(2) when `k` starts absent, lets at most one racing insert for `k`
succeed, (3) never overwrites — the final multiplicity of `k` is the
initial one plus the successful inserts — and (4) an insert finding `k`
present fails with a duplicate-key result and leaves the store unchanged. -/
theorem key_unique_under_races (store : Store) (ops : List StoreOp)
    (k : String) (hinit : countKey store k ≤ 1) :
    countKey (runOps store ops).1 k ≤ 1 ∧
    (countKey store k = 0 → createdCount k (runOps store ops).2 ≤ 1) ∧
    countKey (runOps store ops).1 k
      = countKey store k + createdCount k (runOps store ops).2 ∧
    (∀ doc s, keyExists s doc.emojis = true →
      applyOp s (StoreOp.insert doc) = (s, OpResult.dupKey)) := by
  refine ⟨runOps_countKey_le_one k ops store hinit, ?_, runOps_countKey k ops store, ?_⟩
  · intro h0
    have h1 := runOps_countKey_le_one k ops store hinit
    have h2 := runOps_countKey k ops store
    omega
  · intro doc s hs
    simp [applyOp, insertUnique, hs]

/-- Witness for `key_unique_under_races`: two racing inserts of the same
key against an empty store — the first succeeds, the second fails. -/
theorem key_unique_under_races_witness :
    countKey
        (runOps []
          [StoreOp.insert ⟨punycodeEncode "🐱", "https://a.com/", "🐱"⟩,
           StoreOp.insert ⟨punycodeEncode "🐱", "https://b.com/", "🐱"⟩]).1
        (punycodeEncode "🐱")
      ≤ 1 ∧
    (countKey [] (punycodeEncode "🐱") = 0 →
      createdCount (punycodeEncode "🐱")
          (runOps []
            [StoreOp.insert ⟨punycodeEncode "🐱", "https://a.com/", "🐱"⟩,
             StoreOp.insert ⟨punycodeEncode "🐱", "https://b.com/", "🐱"⟩]).2
        ≤ 1) ∧
    countKey
        (runOps []
          [StoreOp.insert ⟨punycodeEncode "🐱", "https://a.com/", "🐱"⟩,
           StoreOp.insert ⟨punycodeEncode "🐱", "https://b.com/", "🐱"⟩]).1
        (punycodeEncode "🐱")
      = countKey [] (punycodeEncode "🐱") +
        createdCount (punycodeEncode "🐱")
          (runOps []
            [StoreOp.insert ⟨punycodeEncode "🐱", "https://a.com/", "🐱"⟩,
             StoreOp.insert ⟨punycodeEncode "🐱", "https://b.com/", "🐱"⟩]).2 ∧
    (∀ doc s, keyExists s doc.emojis = true →
      applyOp s (StoreOp.insert doc) = (s, OpResult.dupKey)) :=
  key_unique_under_races []
    [StoreOp.insert ⟨punycodeEncode "🐱", "https://a.com/", "🐱"⟩,
     StoreOp.insert ⟨punycodeEncode "🐱", "https://b.com/", "🐱"⟩]
    (punycodeEncode "🐱") (by decide)

/-! ## Resolution and listing claims -/

/-- C8: resolution is a read-only exact-match lookup: `GET /:id` leaves
the store unchanged no matter how many times it runs (creating no record
as a side effect), always answers the same for an unchanged store, answers
not-found exactly when no record carries the queried key, and on a hit
returns the stored `raw` (inside the emoji URL) and the stored target for
a record whose `key` equals the queried id exactly. -/
theorem resolve_readonly_exact (domain : String) (store : Store) (id : String) :
    (resolveRoute domain store id).1 = store ∧
    (∀ n, resolveMany domain id store n = store) ∧
    ((resolveRoute domain store id).2 = ResolveResult.notFound ↔
      findOne store id = none) ∧
    (∀ r, findOne store id = some r →
      (resolveRoute domain store id).2
        = ResolveResult.ok ("https://" ++ domain ++ "/" ++ r.raw) r.url ∧
      r.emojis = id ∧ r ∈ store) := by
  have hfst : (resolveRoute domain store id).1 = store := by
    unfold resolveRoute
    cases findOne store id <;> rfl
  refine ⟨hfst, ?_, ?_, ?_⟩
  · intro n
    induction n with
    | zero => rfl
    | succ m ihm => rw [resolveMany, hfst]; exact ihm
  · cases hf : findOne store id with
    | none => simp [resolveRoute, hf]
    | some r => simp [resolveRoute, hf]
  · intro r hr
    refine ⟨by simp [resolveRoute, hr], ?_, List.mem_of_find?_eq_some hr⟩
    have := List.find?_some hr
    simpa using this

/-- Witness for `resolve_readonly_exact` at a one-record store queried
with the exact canonical key of `🐱`. -/
theorem resolve_readonly_exact_witness :
    (resolveRoute "localhost" [⟨punycodeEncode "🐱", "https://a.com/", "🐱"⟩]
        (punycodeEncode "🐱")).1
      = [⟨punycodeEncode "🐱", "https://a.com/", "🐱"⟩] ∧
    resolveMany "localhost" (punycodeEncode "🐱")
        [⟨punycodeEncode "🐱", "https://a.com/", "🐱"⟩] 3
      = [⟨punycodeEncode "🐱", "https://a.com/", "🐱"⟩] ∧
    (resolveRoute "localhost" [⟨punycodeEncode "🐱", "https://a.com/", "🐱"⟩]
        (punycodeEncode "🐱")).2
      = ResolveResult.ok ("https://" ++ "localhost" ++ "/" ++ "🐱")
          "https://a.com/" := by
  refine ⟨(resolve_readonly_exact _ _ _).1, (resolve_readonly_exact _ _ _).2.1 3, ?_⟩
  exact ((resolve_readonly_exact "localhost"
    [⟨punycodeEncode "🐱", "https://a.com/", "🐱"⟩] (punycodeEncode "🐱")).2.2.2
    ⟨punycodeEncode "🐱", "https://a.com/", "🐱"⟩ (by decide)).1

/-- C9: with the store in creation order (inserts append, conjunct 4), for
every positive `n` the `GET /last/:n` listing is exactly the first `n`
entries of the reversed store — the `n` most recently created records,
most recent first, all of them when fewer than `n` exist — its length is
exactly `n` whenever the store holds at least `n` records, and the full
`GET /` listing is the whole store most recent first. -/
theorem lastN_most_recent_first (store : Store) (num : Nat) (hpos : 1 ≤ num) :
    lastNRoute store num = (listAllRoute store).take num ∧
    listAllRoute store = store.reverse ∧
    (num ≤ store.length → (lastNRoute store num).length = num) ∧
    (∀ doc, keyExists store doc.emojis = false →
      insertUnique store doc = (store ++ [doc], InsertResult.created doc)) := by
  have hmain : lastNRoute store num = store.reverse.take num := by
    unfold lastNRoute jsSliceNeg
    rw [if_neg (by omega)]
    exact List.take_reverse.symm
  refine ⟨hmain, rfl, ?_, ?_⟩
  · intro hle
    rw [hmain, List.length_take, List.length_reverse]
    omega
  · intro doc hd
    simp [insertUnique, hd]

/-- Witness for `lastN_most_recent_first`: the last 2 of a three-record
store, most recent first. -/
theorem lastN_most_recent_first_witness :
    (let s : Store := [⟨"a-", "https://a.com/", "a"⟩,
       ⟨"b-", "https://b.com/", "b"⟩, ⟨"c-", "https://c.com/", "c"⟩];
     lastNRoute s 2 = (listAllRoute s).take 2 ∧
     listAllRoute s = s.reverse ∧
     (2 ≤ s.length → (lastNRoute s 2).length = 2) ∧
     (∀ doc, keyExists s doc.emojis = false →
       insertUnique s doc = (s ++ [doc], InsertResult.created doc))) :=
  lastN_most_recent_first
    [⟨"a-", "https://a.com/", "a"⟩, ⟨"b-", "https://b.com/", "b"⟩,
     ⟨"c-", "https://c.com/", "c"⟩] 2 (by decide)

end EmojiShortener
